import Mathlib

/-!
Feedback manager: a verification development of `backend/main.go`

The service is a single Go file: four HTTP handlers over one SQL table.
The embedding below follows the source function by function.

* Go values: `int` is modelled by `Int` (no arithmetic is performed on
  integers by the source; `Atoi` carries the 64-bit range check), a slice is
  `Slice` (the `nil` slice is kept apart from an empty non-nil one).
* The response writer is explicit state: header map, status line, written
  chunks.  A handler is a function from the request, the table contents and
  the outcome of the store calls to the final writer and the new table.
* The database is outside the repository.  The table declared at
  `main.go:53-58` is modelled by its rows in scan order plus the `SERIAL`
  counter; the four statements of the source get their SQL meaning; whether a
  call of the driver reports an error is an input (`Faults`).
* `net/http` is outside the repository.  `http.Error`, `http.Redirect` and the
  dispatch of `http.ServeMux` (redirects and 404 included) are embedded as the
  library runs them.
* `encoding/json` is outside the repository.  The decoder is represented by
  its outcome on the request body (`Request.Body`), the encoder by the JSON
  value it writes (`JSONValue`).
-/

namespace FeedbackManager

/-! ## Data model -/

/-- The record type, `main.go:17-22`. -/
structure Feedback where
  ID : Int
  EmployeeID : String
  FeedbackText : String
  Rating : Int
deriving DecidableEq, Repr

/-- A Go slice of records: `none` is the `nil` slice. -/
abbrev Slice := Option (List Feedback)

/-- Go `append(s, x)`: appending to the `nil` slice allocates. -/
def Slice.append : Slice → Feedback → Slice
  | none, x => some [x]
  | some l, x => some (l ++ [x])

/-- The elements of a slice; the `nil` slice has none. -/
def Slice.toList : Slice → List Feedback
  | none => []
  | some l => l

/-- JSON values written by `json.Encoder`. -/
inductive JSONValue where
  | null
  | number (n : Int)
  | string (s : String)
  | array (items : List JSONValue)
  | object (fields : List (String × JSONValue))

/-- Encoding of one record, keys from the struct tags of `main.go:18-21`. -/
def MarshalFeedback (fb : Feedback) : JSONValue :=
  .object [("id", .number fb.ID), ("employeeId", .string fb.EmployeeID),
    ("feedbackText", .string fb.FeedbackText), ("rating", .number fb.Rating)]

/-- Encoding of a slice: `encoding/json` writes a `nil` slice as `null`. -/
def MarshalSlice : Slice → JSONValue
  | none => .null
  | some l => .array (l.map MarshalFeedback)

/-! ## HTTP plumbing -/

/-- A header map; every key used by the source is already canonical. -/
abbrev Header := List (String × String)

/-- Go `Header.Del`. -/
def Header.Del (h : Header) (k : String) : Header :=
  h.filter (fun kv => kv.1 != k)

/-- Go `Header.Set`: replaces any value stored under the key. -/
def Header.Set (h : Header) (k v : String) : Header :=
  Header.Del h k ++ [(k, v)]

/-- Go `Header.Get`, `none` when the key is absent. -/
def Header.Get (h : Header) (k : String) : Option String :=
  (h.find? (fun kv => kv.1 == k)).map Prod.snd

/-- One write to the response body. -/
inductive Chunk where
  | text (s : String)
  | json (v : JSONValue)

/-- The state of an `http.ResponseWriter`. `status` is `none` until the
status line is fixed by `WriteHeader` or by the first write. -/
structure ResponseWriter where
  header : Header
  status : Option Nat
  body : List Chunk

/-- The writer a handler receives. -/
def ResponseWriter.new : ResponseWriter := ⟨[], none, []⟩

/-- The status code the client sees: 200 unless `WriteHeader` chose another. -/
def ResponseWriter.Status (w : ResponseWriter) : Nat := w.status.getD 200

/-- Go `w.WriteHeader(code)`; a second call is ignored. -/
def ResponseWriter.WriteHeader (w : ResponseWriter) (code : Nat) : ResponseWriter :=
  match w.status with
  | none => { w with status := some code }
  | some _ => w

/-- Go `w.Write`: the first write fixes the status to 200 when none was chosen. -/
def ResponseWriter.Write (w : ResponseWriter) (c : Chunk) : ResponseWriter :=
  { ResponseWriter.WriteHeader w 200 with body := w.body ++ [c] }

def StatusOK : Nat := 200
def StatusBadRequest : Nat := 400
def StatusMethodNotAllowed : Nat := 405
def StatusInternalServerError : Nat := 500

def MethodGet : String := "GET"
def MethodPost : String := "POST"
def MethodPut : String := "PUT"
def MethodDelete : String := "DELETE"

/-- Go `http.Error`: plain-text content type, the code, the message and a newline. -/
def Error (w : ResponseWriter) (msg : String) (code : Nat) : ResponseWriter :=
  let h := Header.Del w.header "Content-Length"
  let h := Header.Set h "Content-Type" "text/plain; charset=utf-8"
  let h := Header.Set h "X-Content-Type-Options" "nosniff"
  ResponseWriter.Write (ResponseWriter.WriteHeader { w with header := h } code)
    (.text (msg ++ "\n"))

/-- Go `json.NewEncoder(w).Encode(v)`: one write of the encoded value. -/
def Encode (w : ResponseWriter) (v : JSONValue) : ResponseWriter :=
  ResponseWriter.Write w (.json v)

/-- Go `fmt.Fprintf(w, ...)` after formatting. -/
def Fprintf (w : ResponseWriter) (s : String) : ResponseWriter :=
  ResponseWriter.Write w (.text s)

/-- A request as the handlers read it: method, `r.URL.Path`, and the outcome
of `json.NewDecoder(r.Body).Decode` into a zero `Feedback` (the error text, or
the decoded struct, absent fields left at their zero value). -/
structure Request where
  Method : String
  Path : String
  Body : Except String Feedback

/-- `main.go:26-30`. -/
def enableCORS (w : ResponseWriter) : ResponseWriter :=
  let h := Header.Set w.header "Access-Control-Allow-Origin" "*"
  let h := Header.Set h "Access-Control-Allow-Methods" "GET, POST, PUT, DELETE, OPTIONS"
  let h := Header.Set h "Access-Control-Allow-Headers" "Content-Type"
  { w with header := h }

/-! ## Library functions used on paths -/

/-- Pieces of a character list between occurrences of `sep`. -/
def splitChars (sep : Char) : List Char → List (List Char)
  | [] => [[]]
  | c :: cs =>
    if c = sep then [] :: splitChars sep cs
    else
      match splitChars sep cs with
      | p :: ps => (c :: p) :: ps
      | [] => [[c]]

/-- Go `strings.Split(s, "/")`. -/
def Split (s : String) : List String :=
  (splitChars '/' s.toList).map String.mk

/-- Go `strconv.Atoi`: an optional sign, at least one decimal digit, nothing
else, and the value within the 64-bit `int` range. -/
def Atoi (s : String) : Option Int :=
  let cs := s.toList
  let neg := cs.head? == some '-'
  let ds := if cs.head? == some '-' || cs.head? == some '+' then cs.tail else cs
  if ds.isEmpty then none
  else if ds.all Char.isDigit then
    let n : Int := ds.foldl (fun a c => a * 10 + ((c.toNat - 48 : Nat) : Int)) 0
    let v : Int := if neg then -n else n
    if -(2 : Int) ^ 63 ≤ v ∧ v < (2 : Int) ^ 63 then some v else none
  else none

/-- The `%d` verb of `fmt` on an `int`. -/
def formatInt (i : Int) : String := toString i

/-! ## The store -/

/-- The `feedback` table (`main.go:53-58`): rows in scan order and the next
value of the `SERIAL` sequence behind `id`. -/
structure DB where
  rows : List Feedback
  seq : Int
deriving DecidableEq, Repr

/-- Outcome of the driver calls of one request.
* `stmtFails`: the call of `db.Query`, `db.QueryRow(...).Scan` or `db.Exec`
  returns an error without touching the table.
* `scanFails`: positions (from 0) of the result rows on which `rows.Scan`
  returns an error.
* `iterStops`: `some n` when `rows.Next()` reports `false` after `n` rows
  because the iteration failed. -/
structure Faults where
  stmtFails : Bool
  scanFails : List Nat
  iterStops : Option Nat
deriving DecidableEq, Repr

/-- No driver call fails. -/
def Faults.none : Faults := ⟨false, [], Option.none⟩

/-- `INSERT INTO feedback (employee_id, feedback_text, rating) VALUES (..)
RETURNING id`: the id is drawn from the sequence; the primary key rejects an
id that is already stored (the sequence still advances). -/
def DB.insert (db : DB) (e t : String) (r : Int) : Option Int × DB :=
  if db.rows.any (fun x => x.ID == db.seq) then
    (Option.none, { db with seq := db.seq + 1 })
  else
    (some db.seq, { rows := db.rows ++ [⟨db.seq, e, t, r⟩], seq := db.seq + 1 })

/-- `UPDATE feedback SET employee_id=$1, feedback_text=$2, rating=$3 WHERE id=$4`. -/
def DB.update (db : DB) (e t : String) (r : Int) (id : Int) : DB :=
  { db with rows := db.rows.map (fun x => if x.ID = id then ⟨x.ID, e, t, r⟩ else x) }

/-- `DELETE FROM feedback WHERE id=$1`. -/
def DB.delete (db : DB) (id : Int) : DB :=
  { db with rows := db.rows.filter (fun x => x.ID != id) }

/-- The rows `rows.Next()` hands out for
`SELECT id, employee_id, feedback_text, rating FROM feedback`. -/
def DB.delivered (db : DB) (f : Faults) : List Feedback :=
  match f.iterStops with
  | Option.none => db.rows
  | some n => db.rows.take n

/-! ## Handlers -/

/-- `main.go:72-75`. -/
def handler (db : DB) (_f : Faults) (_r : Request) : ResponseWriter × DB :=
  let w := enableCORS ResponseWriter.new
  (Fprintf w "Hello, Feedback Manager!", db)

/-- The loop of `main.go:91-96`, `i` being the position of the next row. -/
def scanLoop (scanFails : List Nat) : Nat → List Feedback → Slice → Slice
  | _, [], feedbacks => feedbacks
  | i, fb :: rest, feedbacks =>
    scanLoop scanFails (i + 1) rest
      (if i ∈ scanFails then feedbacks else Slice.append feedbacks fb)

/-- `main.go:77-121`. -/
def feedbackHandler (db : DB) (f : Faults) (r : Request) : ResponseWriter × DB :=
  let w := enableCORS ResponseWriter.new
  let w := { w with header := Header.Set w.header "Content-Type" "application/json" }
  if r.Method = MethodGet then
    if f.stmtFails then
      (Error w "Failed to fetch" StatusInternalServerError, db)
    else
      let feedbacks := scanLoop f.scanFails 0 (DB.delivered db f) Option.none
      (Encode w (MarshalSlice feedbacks), db)
  else if r.Method = MethodPost then
    match r.Body with
    | .error err => (Error w err StatusBadRequest, db)
    | .ok newFeedback =>
      if f.stmtFails then
        (Error w "Failed to insert" StatusInternalServerError, db)
      else
        match DB.insert db newFeedback.EmployeeID newFeedback.FeedbackText newFeedback.Rating with
        | (Option.none, db1) => (Error w "Failed to insert" StatusInternalServerError, db1)
        | (some id, db1) => (Encode w (MarshalFeedback { newFeedback with ID := id }), db1)
  else
    (Error w "Method not allowed" StatusMethodNotAllowed, db)

/-- `main.go:123-162`. -/
def updateFeedbackHandler (db : DB) (f : Faults) (r : Request) : ResponseWriter × DB :=
  let w := enableCORS ResponseWriter.new
  let w := { w with header := Header.Set w.header "Content-Type" "application/json" }
  if r.Method ≠ MethodPut then
    (Error w "Method not allowed" StatusMethodNotAllowed, db)
  else
    let parts := Split r.Path
    if parts.length ≠ 3 then
      (Error w "Invalid URL" StatusBadRequest, db)
    else
      match Atoi (parts.getD 2 "") with
      | Option.none => (Error w "Invalid ID" StatusBadRequest, db)
      | some id =>
        match r.Body with
        | .error err => (Error w err StatusBadRequest, db)
        | .ok updated =>
          if f.stmtFails then
            (Error w "Failed to update" StatusInternalServerError, db)
          else
            (Encode w (MarshalFeedback { updated with ID := id }),
              DB.update db updated.EmployeeID updated.FeedbackText updated.Rating id)

/-- `main.go:164-193`. -/
def deleteFeedbackHandler (db : DB) (f : Faults) (r : Request) : ResponseWriter × DB :=
  let w := enableCORS ResponseWriter.new
  let w := { w with header := Header.Set w.header "Content-Type" "application/json" }
  if r.Method ≠ MethodDelete then
    (Error w "Method not allowed" StatusMethodNotAllowed, db)
  else
    let parts := Split r.Path
    if parts.length ≠ 4 then
      (Error w "Invalid URL" StatusBadRequest, db)
    else
      match Atoi (parts.getD 3 "") with
      | Option.none => (Error w "Invalid ID" StatusBadRequest, db)
      | some id =>
        if f.stmtFails then
          (Error w "Failed to delete" StatusInternalServerError, db)
        else
          let w := ResponseWriter.WriteHeader w StatusOK
          (Fprintf w ("Feedback with ID " ++ formatInt id ++ " deleted"), DB.delete db id)

/-! ## The request multiplexer

`http.ServeMux` is library code.  Its dispatch is embedded as the server runs
it on the four patterns of `main.go:63-66`: besides calling a handler it
answers by itself with a redirect (a path that is not clean, a subtree given
without its final slash) or with 404 (no pattern matches).  A path is taken
to need no percent-escaping, so that `r.URL.Path`, its escaped form and the
`Location` written for it coincide. -/

def StatusTemporaryRedirect : Nat := 307
def StatusNotFound : Nat := 404
def MethodHead : String := "HEAD"
def MethodConnect : String := "CONNECT"

/-- Go `path.Clean` on the segments of a rooted path: empty and `.` segments
are dropped and `..` drops the segment before it (nothing at the root).
`acc` holds the segments kept so far, last one first. -/
def cleanSegments : List (List Char) → List (List Char) → List (List Char)
  | acc, [] => acc.reverse
  | acc, seg :: rest =>
    if seg = [] ∨ seg = ['.'] then cleanSegments acc rest
    else if seg = ['.', '.'] then cleanSegments acc.tail rest
    else cleanSegments (seg :: acc) rest

/-- Segments put back together with `/` between them. -/
def joinSegments : List (List Char) → List Char
  | [] => []
  | [seg] => seg
  | seg :: rest => seg ++ '/' :: joinSegments rest

/-- Go `path.Clean` on a rooted path. -/
def pathClean (p : List Char) : List Char :=
  '/' :: joinSegments (cleanSegments [] (splitChars '/' p))

/-- The `cleanPath` of `net/http`: the path rooted and cleaned, a final slash kept. -/
def cleanPath (p : List Char) : List Char :=
  if p = [] then ['/']
  else
    let q := if p.head? = some '/' then p else '/' :: p
    if q.getLast? = some '/' ∧ pathClean q ≠ ['/'] then pathClean q ++ ['/'] else pathClean q

/-- The four registrations of `main.go:63-66`. -/
inductive Route where
  | root
  | feedback
  | update
  | delete
deriving DecidableEq, Repr

/-- The pattern a path matches: `/feedback` matches that path only, a pattern
ending in a slash matches every path it starts, the most specific one wins. -/
def muxMatch (p : List Char) : Option Route :=
  if p = "/feedback".toList then some Route.feedback
  else if "/feedback/delete/".toList.isPrefixOf p then some Route.delete
  else if "/feedback/".toList.isPrefixOf p then some Route.update
  else if "/".toList.isPrefixOf p then some Route.root
  else Option.none

/-- The `exactMatch` of the mux: a subtree pattern matches a path exactly when
the path ends in a slash and has as many slashes as the pattern has segments. -/
def exactMatch (n : Option Route) (p : List Char) : Bool :=
  match n with
  | Option.none => false
  | some Route.feedback => true
  | some Route.root => p.getLast? == some '/' && p.count '/' == 1
  | some Route.update => p.getLast? == some '/' && p.count '/' == 2
  | some Route.delete => p.getLast? == some '/' && p.count '/' == 3

/-- The mux redirects a path to the same path with a final slash when the
path has no exact match and the path with the slash has one. -/
def slashRedirect (p : List Char) : Bool :=
  !exactMatch (muxMatch p) p && !(p.getLast? == some '/') &&
    exactMatch (muxMatch (p ++ ['/'])) (p ++ ['/'])

/-- The `htmlEscape` of `net/http`. -/
def htmlEscape (cs : List Char) : List Char :=
  cs.flatMap fun c =>
    if c = '&' then "&amp;".toList
    else if c = '<' then "&lt;".toList
    else if c = '>' then "&gt;".toList
    else if c = '"' then "&#34;".toList
    else if c = Char.ofNat 39 then "&#39;".toList
    else [c]

/-- Go `http.StatusText` on the codes the mux uses. -/
def StatusText (code : Nat) : String :=
  if code = 301 then "Moved Permanently"
  else if code = 307 then "Temporary Redirect"
  else if code = 404 then "Not Found"
  else ""

/-- Go `http.Redirect` to a rooted target: the `Location` header, the status,
and for `GET` a short HTML body; no other header is set. -/
def Redirect (w : ResponseWriter) (r : Request) (url : List Char) (code : Nat) :
    ResponseWriter :=
  let hadCT := (Header.Get w.header "Content-Type").isSome
  let h := Header.Set w.header "Location" (String.mk url)
  let h :=
    if hadCT = false ∧ (r.Method = MethodGet ∨ r.Method = MethodHead) then
      Header.Set h "Content-Type" "text/html; charset=utf-8"
    else h
  let w1 := ResponseWriter.WriteHeader { w with header := h } code
  if hadCT = false ∧ r.Method = MethodGet then
    ResponseWriter.Write w1
      (.text ("<a href=\"" ++ String.mk (htmlEscape url) ++ "\">" ++ StatusText code
        ++ "</a>.\n\n"))
  else w1

/-- Go `http.NotFound`. -/
def NotFound (w : ResponseWriter) : ResponseWriter :=
  Error w "404 page not found" StatusNotFound

/-- The handler registered for a matched pattern, `main.go:63-66`; 404 without a match. -/
def dispatch (n : Option Route) (db : DB) (f : Faults) (r : Request) : ResponseWriter × DB :=
  match n with
  | some Route.root => handler db f r
  | some Route.feedback => feedbackHandler db f r
  | some Route.update => updateFeedbackHandler db f r
  | some Route.delete => deleteFeedbackHandler db f r
  | Option.none => (NotFound ResponseWriter.new, db)

/-- The server for one request, `http.ListenAndServe(":8080", nil)` over the
default mux: a `CONNECT` path is matched as it is, any other path is cleaned
first; a subtree without its slash and an unclean path are redirected by the
mux itself, no handler running; otherwise the handler of the matched pattern
runs. -/
def ServeHTTP (db : DB) (f : Faults) (r : Request) : ResponseWriter × DB :=
  let p := r.Path.toList
  if r.Method = MethodConnect then
    if slashRedirect p then
      (Redirect ResponseWriter.new r (cleanPath p ++ ['/']) StatusTemporaryRedirect, db)
    else dispatch (muxMatch p) db f r
  else if slashRedirect (cleanPath p) then
    (Redirect ResponseWriter.new r (cleanPath p ++ ['/']) StatusTemporaryRedirect, db)
  else if cleanPath p ≠ p then
    (Redirect ResponseWriter.new r (cleanPath p) StatusTemporaryRedirect, db)
  else dispatch (muxMatch (cleanPath p)) db f r

/-! ## Notions used in the statements -/

/-- The three cross-origin headers of `enableCORS` are present with their values. -/
def hasCORS (w : ResponseWriter) : Prop :=
  Header.Get w.header "Access-Control-Allow-Origin" = some "*" ∧
  Header.Get w.header "Access-Control-Allow-Methods" = some "GET, POST, PUT, DELETE, OPTIONS" ∧
  Header.Get w.header "Access-Control-Allow-Headers" = some "Content-Type"

/-- The rows of a result set that survive the loop of `main.go:91-96`: those
whose position is not one where the scan fails, positions counted from `i`. -/
def scanned (scanFails : List Nat) : Nat → List Feedback → List Feedback
  | _, [] => []
  | i, fb :: rest =>
    if i ∈ scanFails then scanned scanFails (i + 1) rest
    else fb :: scanned scanFails (i + 1) rest

/-- The writer after the first two lines of the three JSON handlers. -/
def jsonWriter : ResponseWriter :=
  { enableCORS ResponseWriter.new with
    header := Header.Set (enableCORS ResponseWriter.new).header "Content-Type" "application/json" }

/-- The request `GET /feedback`; the decoder is not run on it. -/
def listRequest : Request := ⟨MethodGet, "/feedback", .error "EOF"⟩

/-- Two sample records. -/
def sampleA : Feedback := ⟨1, "E1", "Good", 5⟩

def sampleB : Feedback := ⟨2, "E2", "Fair", 3⟩

/-! ## Header lemmas -/

theorem Header.find_filter_ne (h : Header) (k k2 : String) (hk : k ≠ k2) :
    (List.filter (fun kv => kv.1 != k2) h).find? (fun kv => kv.1 == k)
      = h.find? (fun kv => kv.1 == k) := by
  induction h with
  | nil => rfl
  | cons a t ih =>
    by_cases h1 : a.1 = k2
    · have e1 : (a.1 != k2) = false := by simp [h1]
      have e2 : (a.1 == k) = false := by
        simpa using fun h3 : a.1 = k => hk (h3.symm.trans h1)
      simp only [List.filter_cons, List.find?_cons, e1, e2, ih, Bool.false_eq_true, if_false]
    · have e1 : (a.1 != k2) = true := by simp [h1]
      by_cases h2 : a.1 = k
      · have e2 : (a.1 == k) = true := by simp [h2]
        simp only [List.filter_cons, List.find?_cons, e1, e2, if_true]
      · have e2 : (a.1 == k) = false := by simp [h2]
        simp only [List.filter_cons, List.find?_cons, e1, e2, ih, if_true]

theorem Header.Get_Del_ne (h : Header) (k k2 : String) (hk : k ≠ k2) :
    Header.Get (Header.Del h k2) k = Header.Get h k := by
  simp only [Header.Get, Header.Del, Header.find_filter_ne h k k2 hk]

theorem Header.Get_Set_ne (h : Header) (k k2 v : String) (hk : k ≠ k2) :
    Header.Get (Header.Set h k2 v) k = Header.Get h k := by
  have h2 : ¬ k2 = k := fun h3 => hk h3.symm
  rw [← Header.Get_Del_ne h k k2 hk]
  simp only [Header.Get, Header.Set, List.find?_append]
  cases hf : List.find? (fun kv => kv.1 == k) (Header.Del h k2) <;> simp [List.find?_cons, h2]

theorem Header.Get_Set_same (h : Header) (k v : String) :
    Header.Get (Header.Set h k v) k = some v := by
  have hnone : List.find? (fun kv => kv.1 == k) (Header.Del h k) = none := by
    simp only [Header.Del, List.find?_eq_none, List.mem_filter]
    intro x hx
    simpa using hx.2
  simp [Header.Get, Header.Set, List.find?_append, hnone, List.find?_cons]

/-! ## Cross-origin headers -/

theorem hasCORS_enableCORS (w : ResponseWriter) : hasCORS (enableCORS w) := by
  refine ⟨?_, ?_, ?_⟩
  · simp only [enableCORS]
    rw [Header.Get_Set_ne _ _ _ _ (by decide), Header.Get_Set_ne _ _ _ _ (by decide),
      Header.Get_Set_same]
  · simp only [enableCORS]
    rw [Header.Get_Set_ne _ _ _ _ (by decide), Header.Get_Set_same]
  · simp only [enableCORS]
    rw [Header.Get_Set_same]

theorem hasCORS_of_header_eq {w v : ResponseWriter} (h : v.header = w.header)
    (hw : hasCORS w) : hasCORS v := by
  unfold hasCORS at *
  rw [h]
  exact hw

theorem WriteHeader_header (w : ResponseWriter) (code : Nat) :
    (ResponseWriter.WriteHeader w code).header = w.header := by
  unfold ResponseWriter.WriteHeader
  cases w.status <;> rfl

theorem Write_header (w : ResponseWriter) (c : Chunk) :
    (ResponseWriter.Write w c).header = w.header := by
  simp [ResponseWriter.Write, WriteHeader_header]

theorem hasCORS_contentType (w : ResponseWriter) (v : String) (hw : hasCORS w) :
    hasCORS { w with header := Header.Set w.header "Content-Type" v } := by
  obtain ⟨h1, h2, h3⟩ := hw
  refine ⟨?_, ?_, ?_⟩
  · simpa [Header.Get_Set_ne _ _ _ _ (show "Access-Control-Allow-Origin" ≠ "Content-Type" by decide)] using h1
  · simpa [Header.Get_Set_ne _ _ _ _ (show "Access-Control-Allow-Methods" ≠ "Content-Type" by decide)] using h2
  · simpa [Header.Get_Set_ne _ _ _ _ (show "Access-Control-Allow-Headers" ≠ "Content-Type" by decide)] using h3

theorem hasCORS_Error (w : ResponseWriter) (msg : String) (code : Nat) (hw : hasCORS w) :
    hasCORS (Error w msg code) := by
  obtain ⟨h1, h2, h3⟩ := hw
  unfold hasCORS Error
  simp only [Write_header, WriteHeader_header]
  refine ⟨?_, ?_, ?_⟩
  · rw [Header.Get_Set_ne _ _ _ _ (by decide), Header.Get_Set_ne _ _ _ _ (by decide),
      Header.Get_Del_ne _ _ _ (by decide)]
    exact h1
  · rw [Header.Get_Set_ne _ _ _ _ (by decide), Header.Get_Set_ne _ _ _ _ (by decide),
      Header.Get_Del_ne _ _ _ (by decide)]
    exact h2
  · rw [Header.Get_Set_ne _ _ _ _ (by decide), Header.Get_Set_ne _ _ _ _ (by decide),
      Header.Get_Del_ne _ _ _ (by decide)]
    exact h3

theorem hasCORS_Write (w : ResponseWriter) (c : Chunk) (hw : hasCORS w) :
    hasCORS (ResponseWriter.Write w c) :=
  hasCORS_of_header_eq (Write_header w c) hw

theorem hasCORS_WriteHeader (w : ResponseWriter) (code : Nat) (hw : hasCORS w) :
    hasCORS (ResponseWriter.WriteHeader w code) :=
  hasCORS_of_header_eq (WriteHeader_header w code) hw

theorem hasCORS_handler (db : DB) (f : Faults) (r : Request) : hasCORS (handler db f r).1 := by
  simp only [handler, Fprintf]
  exact hasCORS_Write _ _ (hasCORS_enableCORS _)

theorem hasCORS_feedbackHandler (db : DB) (f : Faults) (r : Request) :
    hasCORS (feedbackHandler db f r).1 := by
  have hw := hasCORS_contentType _ "application/json" (hasCORS_enableCORS ResponseWriter.new)
  unfold feedbackHandler
  simp only [Encode]
  split
  · split
    · exact hasCORS_Error _ _ _ hw
    · exact hasCORS_Write _ _ hw
  · split
    · split
      · exact hasCORS_Error _ _ _ hw
      · split
        · exact hasCORS_Error _ _ _ hw
        · split
          · exact hasCORS_Error _ _ _ hw
          · exact hasCORS_Write _ _ hw
    · exact hasCORS_Error _ _ _ hw

theorem hasCORS_updateFeedbackHandler (db : DB) (f : Faults) (r : Request) :
    hasCORS (updateFeedbackHandler db f r).1 := by
  have hw := hasCORS_contentType _ "application/json" (hasCORS_enableCORS ResponseWriter.new)
  unfold updateFeedbackHandler
  simp only [Encode]
  split
  · exact hasCORS_Error _ _ _ hw
  · split
    · exact hasCORS_Error _ _ _ hw
    · split
      · exact hasCORS_Error _ _ _ hw
      · split
        · exact hasCORS_Error _ _ _ hw
        · split
          · exact hasCORS_Error _ _ _ hw
          · exact hasCORS_Write _ _ hw

theorem hasCORS_deleteFeedbackHandler (db : DB) (f : Faults) (r : Request) :
    hasCORS (deleteFeedbackHandler db f r).1 := by
  have hw := hasCORS_contentType _ "application/json" (hasCORS_enableCORS ResponseWriter.new)
  unfold deleteFeedbackHandler
  simp only [Fprintf]
  split
  · exact hasCORS_Error _ _ _ hw
  · split
    · exact hasCORS_Error _ _ _ hw
    · split
      · exact hasCORS_Error _ _ _ hw
      · split
        · exact hasCORS_Error _ _ _ hw
        · exact hasCORS_Write _ _ (hasCORS_WriteHeader _ _ hw)

/-- C10: every response produced by any of the four handlers, on every
branch (success, 400, 405 and 500 alike), carries the three cross-origin
headers `Access-Control-Allow-Origin: *`,
`Access-Control-Allow-Methods: GET, POST, PUT, DELETE, OPTIONS` and
`Access-Control-Allow-Headers: Content-Type`. -/
theorem cors_on_every_response (db : DB) (f : Faults) (r : Request) :
    hasCORS (handler db f r).1 ∧ hasCORS (feedbackHandler db f r).1 ∧
    hasCORS (updateFeedbackHandler db f r).1 ∧ hasCORS (deleteFeedbackHandler db f r).1 :=
  ⟨hasCORS_handler db f r, hasCORS_feedbackHandler db f r,
    hasCORS_updateFeedbackHandler db f r, hasCORS_deleteFeedbackHandler db f r⟩

/-! ## Path lemmas -/

theorem splitChars_no_sep (sep : Char) (l : List Char) (h : sep ∉ l) :
    splitChars sep l = [l] := by
  induction l with
  | nil => rfl
  | cons c cs ih =>
    have hc : ¬ c = sep := fun e => h (by simp [e])
    have hcs : sep ∉ cs := fun e => h (List.mem_cons_of_mem _ e)
    simp [splitChars, hc, ih hcs]

theorem Atoi_eq_none_of_not_digits (seg : String)
    (h : (if seg.toList.head? == some '-' || seg.toList.head? == some '+'
      then seg.toList.tail else seg.toList).all Char.isDigit = false) : Atoi seg = none := by
  unfold Atoi
  simp only [h]
  split <;> simp

theorem Atoi_no_slash (seg : String) (id : Int) (h : Atoi seg = some id) :
    '/' ∉ seg.toList := by
  intro hmem
  have hnone : Atoi seg = none := by
    apply Atoi_eq_none_of_not_digits
    cases hcs : seg.toList with
    | nil => rw [hcs] at hmem; exact absurd hmem (by simp)
    | cons c t =>
      rw [hcs] at hmem
      by_cases hsign : c = '-' ∨ c = '+'
      · have ht : '/' ∈ t := by
          rcases List.mem_cons.mp hmem with e | e
          · rcases hsign with e2 | e2 <;> rw [e2] at e <;> exact absurd e (by decide)
          · exact e
        have : ((c :: t).head? == some '-' || (c :: t).head? == some '+') = true := by
          simpa using hsign
        rw [this]
        simp only [if_true, List.tail_cons, List.all_eq_false]
        exact ⟨'/', ht, by decide⟩
      · have : ((c :: t).head? == some '-' || (c :: t).head? == some '+') = false := by
          simpa using hsign
        rw [this]
        simp only [Bool.false_eq_true, if_false, List.all_eq_false]
        exact ⟨'/', hmem, by decide⟩
  rw [hnone] at h
  exact absurd h (by simp)

theorem Split_update_path (seg : String) (h : '/' ∉ seg.toList) :
    Split ("/feedback/" ++ seg) = ["", "feedback", seg] := by
  have e : ("/feedback/" ++ seg).toList = "/feedback/".toList ++ seg.toList := by
    simp [String.toList]
  have e2 : "/feedback/".toList = ['/', 'f', 'e', 'e', 'd', 'b', 'a', 'c', 'k', '/'] := rfl
  have h2 : splitChars '/' seg.data = [seg.data] := splitChars_no_sep '/' seg.toList h
  unfold Split
  rw [e, e2]
  simp [splitChars, h2]

theorem Split_delete_path (seg : String) (h : '/' ∉ seg.toList) :
    Split ("/feedback/delete/" ++ seg) = ["", "feedback", "delete", seg] := by
  have e : ("/feedback/delete/" ++ seg).toList = "/feedback/delete/".toList ++ seg.toList := by
    simp [String.toList]
  have e2 : "/feedback/delete/".toList
      = ['/', 'f', 'e', 'e', 'd', 'b', 'a', 'c', 'k', '/', 'd', 'e', 'l', 'e', 't', 'e', '/'] := rfl
  have h2 : splitChars '/' seg.data = [seg.data] := splitChars_no_sep '/' seg.toList h
  unfold Split
  rw [e, e2]
  simp [splitChars, h2]

/-! ## The scan loop -/

theorem Slice.toList_append (s : Slice) (x : Feedback) :
    (Slice.append s x).toList = s.toList ++ [x] := by
  cases s <;> rfl

theorem scanLoop_toList (sf : List Nat) (rows : List Feedback) :
    ∀ (i : Nat) (acc : Slice),
      (scanLoop sf i rows acc).toList = acc.toList ++ scanned sf i rows := by
  induction rows with
  | nil => intro i acc; simp [scanLoop, scanned]
  | cons fb rest ih =>
    intro i acc
    by_cases h : i ∈ sf
    · simp [scanLoop, scanned, h, ih]
    · simp [scanLoop, scanned, h, ih, Slice.toList_append]

theorem scanned_nil_faults (rows : List Feedback) : ∀ i, scanned [] i rows = rows := by
  induction rows with
  | nil => intro i; rfl
  | cons fb rest ih => intro i; simp [scanned, ih]

theorem scanLoop_some (sf : List Nat) (rows : List Feedback) :
    ∀ (i : Nat) (l : List Feedback),
      scanLoop sf i rows (some l) = some (l ++ scanned sf i rows) := by
  induction rows with
  | nil => intro i l; simp [scanLoop, scanned]
  | cons fb rest ih =>
    intro i l
    by_cases h : i ∈ sf
    · simp [scanLoop, scanned, h, ih]
    · simp [scanLoop, scanned, h, ih, Slice.append]

/-- With no failing scan, a non-empty result set is returned whole. -/
theorem scanLoop_faultfree_cons (fb : Feedback) (rest : List Feedback) :
    scanLoop [] 0 (fb :: rest) Option.none = some (fb :: rest) := by
  simp [scanLoop, Slice.append, scanLoop_some, scanned_nil_faults]

/-! ## Evaluation of the writer -/

theorem jsonWriter_status : jsonWriter.status = Option.none := rfl

theorem jsonWriter_body : jsonWriter.body = [] := rfl

theorem jsonWriter_contentType :
    Header.Get jsonWriter.header "Content-Type" = some "application/json" :=
  Header.Get_Set_same _ _ _

theorem Error_status (w : ResponseWriter) (msg : String) (code : Nat)
    (h : w.status = Option.none) : (Error w msg code).Status = code := by
  simp [Error, ResponseWriter.Write, ResponseWriter.WriteHeader, ResponseWriter.Status, h]

theorem Error_body (w : ResponseWriter) (msg : String) (code : Nat) :
    (Error w msg code).body = w.body ++ [Chunk.text (msg ++ "\n")] := by
  simp only [Error, ResponseWriter.Write, ResponseWriter.WriteHeader]
  cases w.status <;> rfl

theorem Encode_status (w : ResponseWriter) (v : JSONValue) (h : w.status = Option.none) :
    (Encode w v).Status = 200 := by
  simp [Encode, ResponseWriter.Write, ResponseWriter.WriteHeader, ResponseWriter.Status, h]

theorem Encode_body (w : ResponseWriter) (v : JSONValue) :
    (Encode w v).body = w.body ++ [Chunk.json v] := rfl

theorem Encode_header (w : ResponseWriter) (v : JSONValue) :
    (Encode w v).header = w.header := Write_header w _

/-- What the list branch does once the query has succeeded. -/
theorem feedbackHandler_get (db : DB) (f : Faults) (r : Request)
    (hm : r.Method = MethodGet) (hq : f.stmtFails = false) :
    feedbackHandler db f r
      = (Encode jsonWriter (MarshalSlice (scanLoop f.scanFails 0 (DB.delivered db f) Option.none)),
          db) := by
  simp [feedbackHandler, hm, hq, jsonWriter]

/-- A list on which no driver call fails returns the whole table. -/
theorem list_faultfree (db : DB) :
    (feedbackHandler db Faults.none listRequest).2 = db ∧
    (feedbackHandler db Faults.none listRequest).1.Status = 200 ∧
    ∃ s : Slice, (feedbackHandler db Faults.none listRequest).1.body
        = [Chunk.json (MarshalSlice s)] ∧ s.toList = db.rows := by
  rw [feedbackHandler_get db Faults.none listRequest rfl rfl]
  refine ⟨rfl, Encode_status _ _ jsonWriter_status, _, rfl, ?_⟩
  rw [scanLoop_toList]
  simp [Faults.none, DB.delivered, scanned_nil_faults, Slice.toList]

/-! ## Claims -/

/-- C1 (the code departs from it): listing an empty table after a successful
query answers 200, and the body written is the JSON value `null`, not the
empty array. -/
theorem list_of_empty_store_is_null (seq : Int) (sf : List Nat) (it : Option Nat)
    (path : String) (body : Except String Feedback) :
    (feedbackHandler ⟨[], seq⟩ ⟨false, sf, it⟩ ⟨MethodGet, path, body⟩).1.Status = 200 ∧
    (feedbackHandler ⟨[], seq⟩ ⟨false, sf, it⟩ ⟨MethodGet, path, body⟩).1.body
      = [Chunk.json JSONValue.null] ∧
    (feedbackHandler ⟨[], seq⟩ ⟨false, sf, it⟩ ⟨MethodGet, path, body⟩).1.body
      ≠ [Chunk.json (JSONValue.array [])] := by
  rw [feedbackHandler_get _ _ _ rfl rfl]
  have hd : DB.delivered ⟨[], seq⟩ ⟨false, sf, it⟩ = [] := by
    cases it <;> simp [DB.delivered]
  simp only [hd, scanLoop, MarshalSlice]
  refine ⟨Encode_status _ _ jsonWriter_status, rfl, ?_⟩
  simp [Encode_body, jsonWriter_body]

/-- C2 (the code departs from it): the root route answers every method,
`POST`, `PUT` and `DELETE` included, with 200 and the greeting; it never
answers 405. -/
theorem root_answers_every_method (db : DB) (f : Faults) (method : String)
    (body : Except String Feedback) :
    (ServeHTTP db f ⟨method, "/", body⟩).1.Status = 200 ∧
    (ServeHTTP db f ⟨method, "/", body⟩).1.body = [Chunk.text "Hello, Feedback Manager!"] ∧
    (ServeHTTP db f ⟨method, "/", body⟩).1.Status ≠ StatusMethodNotAllowed := by
  have hroot : ∀ r : Request, r.Path = "/" → ServeHTTP db f r = handler db f r := by
    intro r hp
    have h1 : slashRedirect "/".toList = false := by decide
    have h2 : cleanPath "/".toList = "/".toList := by decide
    have h3 : muxMatch "/".toList = some Route.root := by decide
    unfold ServeHTTP
    simp only [hp, h1, h2, h3, dispatch, Bool.false_eq_true, if_false, ne_eq,
      not_true_eq_false, ite_self]
  rw [hroot _ rfl]
  exact ⟨rfl, rfl, fun h => absurd (show (200 : Nat) = 405 from h) (by decide)⟩

/-- The three other routes do answer 405 to a method they do not serve. -/
theorem method_not_allowed_on_feedback_routes (db : DB) (f : Faults) (r : Request) :
    (r.Method ≠ MethodGet → r.Method ≠ MethodPost →
      (feedbackHandler db f r).1.Status = StatusMethodNotAllowed) ∧
    (r.Method ≠ MethodPut → (updateFeedbackHandler db f r).1.Status = StatusMethodNotAllowed) ∧
    (r.Method ≠ MethodDelete →
      (deleteFeedbackHandler db f r).1.Status = StatusMethodNotAllowed) := by
  refine ⟨fun h1 h2 => ?_, fun h => ?_, fun h => ?_⟩
  · simp only [feedbackHandler, h1, h2, if_false]
    exact Error_status _ _ _ rfl
  · simp only [updateFeedbackHandler, h, ne_eq, not_false_eq_true, if_true]
    exact Error_status _ _ _ rfl
  · simp only [deleteFeedbackHandler, h, ne_eq, not_false_eq_true, if_true]
    exact Error_status _ _ _ rfl

/-- A list that meets no failure returns a non-empty table as an array. -/
theorem list_faultfree_nonempty (db : DB) (h : db.rows ≠ []) :
    (feedbackHandler db Faults.none listRequest).1.body
      = [Chunk.json (JSONValue.array (db.rows.map MarshalFeedback))] := by
  rw [feedbackHandler_get db Faults.none listRequest rfl rfl]
  cases hr : db.rows with
  | nil => exact absurd hr h
  | cons fb rest =>
    have hd : DB.delivered db Faults.none = fb :: rest := by simp [DB.delivered, Faults.none, hr]
    have hsf : Faults.none.scanFails = [] := rfl
    rw [hd, hsf, scanLoop_faultfree_cons]
    rfl

/-- What the update handler does on `PUT /feedback/{seg}` once the segment
parses, the body decodes and the statement succeeds. -/
theorem updateFeedbackHandler_ok (db : DB) (f : Faults) (seg : String) (id : Int)
    (updated : Feedback) (hid : Atoi seg = some id) (hq : f.stmtFails = false) :
    updateFeedbackHandler db f ⟨MethodPut, "/feedback/" ++ seg, .ok updated⟩
      = (Encode jsonWriter (MarshalFeedback { updated with ID := id }),
          DB.update db updated.EmployeeID updated.FeedbackText updated.Rating id) := by
  have hs := Split_update_path seg (Atoi_no_slash seg id hid)
  simp [updateFeedbackHandler, hs, hid, hq, jsonWriter]

/-- What the delete handler does on `DELETE /feedback/delete/{seg}` once the
segment parses and the statement succeeds. -/
theorem deleteFeedbackHandler_ok (db : DB) (f : Faults) (seg : String) (id : Int)
    (body : Except String Feedback) (hid : Atoi seg = some id) (hq : f.stmtFails = false) :
    deleteFeedbackHandler db f ⟨MethodDelete, "/feedback/delete/" ++ seg, body⟩
      = (Fprintf (ResponseWriter.WriteHeader jsonWriter StatusOK)
            ("Feedback with ID " ++ formatInt id ++ " deleted"),
          DB.delete db id) := by
  have hs := Split_delete_path seg (Atoi_no_slash seg id hid)
  simp [deleteFeedbackHandler, hs, hid, hq, jsonWriter]

/-- C3, as stated, fails: with two stored records and a scan failure on the
first row the list answers 200 with the second record only; it neither lists
all records nor reports a server error. -/
theorem list_skips_failed_scan_counterexample :
    (feedbackHandler ⟨[sampleA, sampleB], 3⟩ ⟨false, [0], Option.none⟩ listRequest).1.Status = 200 ∧
    (feedbackHandler ⟨[sampleA, sampleB], 3⟩ ⟨false, [0], Option.none⟩ listRequest).1.body
      = [Chunk.json (JSONValue.array [MarshalFeedback sampleB])] ∧
    ¬ (((feedbackHandler ⟨[sampleA, sampleB], 3⟩ ⟨false, [0], Option.none⟩ listRequest).1.Status
          = 200 ∧
        (feedbackHandler ⟨[sampleA, sampleB], 3⟩ ⟨false, [0], Option.none⟩ listRequest).1.body
          = [Chunk.json (JSONValue.array [MarshalFeedback sampleA, MarshalFeedback sampleB])]) ∨
      (feedbackHandler ⟨[sampleA, sampleB], 3⟩ ⟨false, [0], Option.none⟩ listRequest).1.Status
          = 500) := by
  refine ⟨rfl, rfl, ?_⟩
  rintro (⟨-, h⟩ | h)
  · have h2 : [Chunk.json (JSONValue.array [MarshalFeedback sampleB])]
        = [Chunk.json (JSONValue.array [MarshalFeedback sampleA, MarshalFeedback sampleB])] := h
    simp at h2
  · exact absurd (show (200 : Nat) = 500 from h) (by decide)

/-- C3, amended: when the row iteration runs to its end, a list request
leaves the table alone, answers 500 if the query fails, and otherwise answers
200 with exactly the stored records whose scan succeeded, in scan order (all
of them when no scan fails); a failed scan skips the row and is not reported. -/
theorem list_returns_scanned_rows (db : DB) (f : Faults) (r : Request)
    (hm : r.Method = MethodGet) (hit : f.iterStops = Option.none) :
    (feedbackHandler db f r).2 = db ∧
    (f.stmtFails = true → (feedbackHandler db f r).1.Status = 500) ∧
    (f.stmtFails = false → (feedbackHandler db f r).1.Status = 200 ∧
      ∃ s : Slice, (feedbackHandler db f r).1.body = [Chunk.json (MarshalSlice s)] ∧
        s.toList = scanned f.scanFails 0 db.rows ∧ (f.scanFails = [] → s.toList = db.rows)) := by
  cases hq : f.stmtFails with
  | true =>
    refine ⟨?_, fun _ => ?_, fun h => absurd h (by simp)⟩
    · simp [feedbackHandler, hm, hq]
    · simp only [feedbackHandler, hm, hq, if_true]
      exact Error_status _ _ _ rfl
  | false =>
    rw [feedbackHandler_get db f r hm hq]
    refine ⟨rfl, fun h => absurd h (by simp), fun _ => ⟨Encode_status _ _ jsonWriter_status, _, rfl, ?_⟩⟩
    have hd : DB.delivered db f = db.rows := by simp [DB.delivered, hit]
    rw [scanLoop_toList, hd]
    refine ⟨by simp [Slice.toList], fun hsf => ?_⟩
    rw [hsf, scanned_nil_faults]
    simp [Slice.toList]

/-- Witness of C3 amended: two rows, the scan of the first fails, the second is listed. -/
theorem list_returns_scanned_rows_witness :
    listRequest.Method = MethodGet ∧
    (⟨false, [0], Option.none⟩ : Faults).iterStops = Option.none ∧
    (feedbackHandler ⟨[sampleA, sampleB], 3⟩ ⟨false, [0], Option.none⟩ listRequest).1.Status = 200 ∧
    ∃ s : Slice,
      (feedbackHandler ⟨[sampleA, sampleB], 3⟩ ⟨false, [0], Option.none⟩ listRequest).1.body
        = [Chunk.json (MarshalSlice s)] ∧
      s.toList = [sampleB] :=
  ⟨rfl, rfl,
    ((list_returns_scanned_rows ⟨[sampleA, sampleB], 3⟩ ⟨false, [0], Option.none⟩ listRequest
      rfl rfl).2.2 rfl).1,
    (((list_returns_scanned_rows ⟨[sampleA, sampleB], 3⟩ ⟨false, [0], Option.none⟩ listRequest
      rfl rfl).2.2 rfl).2).imp fun _ h => ⟨h.1, h.2.1⟩⟩

/-- C9 (the code departs from it): the successful delete confirmation is the
plain sentence `Feedback with ID 1 deleted`, sent with status 200 under the
declared content type `application/json`. -/
theorem delete_confirmation_declared_json (db : DB) (sf : List Nat) (it : Option Nat)
    (body : Except String Feedback) :
    (deleteFeedbackHandler db ⟨false, sf, it⟩ ⟨MethodDelete, "/feedback/delete/1", body⟩).1.Status
      = 200 ∧
    (deleteFeedbackHandler db ⟨false, sf, it⟩ ⟨MethodDelete, "/feedback/delete/1", body⟩).1.body
      = [Chunk.text "Feedback with ID 1 deleted"] ∧
    Header.Get
      (deleteFeedbackHandler db ⟨false, sf, it⟩ ⟨MethodDelete, "/feedback/delete/1", body⟩).1.header
      "Content-Type" = some "application/json" := by
  have e : "/feedback/delete/1" = "/feedback/delete/" ++ "1" := by decide
  rw [e, deleteFeedbackHandler_ok db _ "1" 1 body (by decide) rfl]
  refine ⟨rfl, rfl, ?_⟩
  simp only [Fprintf, Write_header, WriteHeader_header]
  exact jsonWriter_contentType

/-- The content types of the other routes: list, create and update declare
`application/json` on success; the greeting declares no content type. -/
theorem content_type_of_other_routes (db : DB) (f : Faults) (r : Request) (seg : String)
    (id : Int) (fb : Feedback) (hq : f.stmtFails = false) (hid : Atoi seg = some id) :
    (r.Method = MethodGet →
      Header.Get (feedbackHandler db f r).1.header "Content-Type" = some "application/json") ∧
    ((feedbackHandler db f ⟨MethodPost, r.Path, .ok fb⟩).1.Status = 200 →
      Header.Get (feedbackHandler db f ⟨MethodPost, r.Path, .ok fb⟩).1.header "Content-Type"
        = some "application/json") ∧
    Header.Get (updateFeedbackHandler db f ⟨MethodPut, "/feedback/" ++ seg, .ok fb⟩).1.header
      "Content-Type" = some "application/json" ∧
    Header.Get (handler db f r).1.header "Content-Type" = Option.none := by
  refine ⟨fun hm => ?_, ?_, ?_, ?_⟩
  · rw [feedbackHandler_get db f r hm hq, Encode_header]
    exact jsonWriter_contentType
  · have hpost : ¬ (MethodPost = MethodGet) := by decide
    simp only [feedbackHandler, hpost, hq, if_false, if_true, Bool.false_eq_true]
    split
    · intro h
      rw [Error_status _ _ _ rfl] at h
      exact absurd h (by decide)
    · intro _
      rw [Encode_header]
      exact jsonWriter_contentType
  · rw [updateFeedbackHandler_ok db f seg id fb hid hq, Encode_header]
    exact jsonWriter_contentType
  · rfl

/-- When the insert returns an id, that id is the sequence value, it is not
stored yet, and the new row is put after the old ones. -/
theorem DB.insert_some (db : DB) (e t : String) (r id : Int)
    (h : (DB.insert db e t r).1 = some id) :
    id = db.seq ∧ (∀ x ∈ db.rows, x.ID ≠ id) ∧
    DB.insert db e t r = (some id, ⟨db.rows ++ [⟨id, e, t, r⟩], db.seq + 1⟩) := by
  unfold DB.insert at h ⊢
  by_cases hany : db.rows.any (fun x => x.ID == db.seq) = true
  · rw [if_pos hany] at h
    exact absurd h (by simp)
  · rw [if_neg hany] at h ⊢
    have hid : db.seq = id := by simpa using h
    subst hid
    refine ⟨rfl, ?_, rfl⟩
    intro x hx hxid
    exact hany (List.any_eq_true.mpr ⟨x, hx, by simpa using hxid⟩)

/-- C4: a `POST /feedback` whose body decodes and whose insert succeeds
answers 200 with the submitted employeeId, feedbackText and rating under the
id the store assigned; that id is carried by no record stored before, an id
sent in the body has no influence, the table afterwards is the old rows
followed by exactly that record, and the next list returns them all. -/
theorem create_returns_and_stores_record (db : DB) (f : Faults) (path : String)
    (newFeedback : Feedback) (id : Int) (hq : f.stmtFails = false)
    (hins : (DB.insert db newFeedback.EmployeeID newFeedback.FeedbackText
      newFeedback.Rating).1 = some id) :
    (feedbackHandler db f ⟨MethodPost, path, .ok newFeedback⟩).1.Status = 200 ∧
    (feedbackHandler db f ⟨MethodPost, path, .ok newFeedback⟩).1.body
      = [Chunk.json (MarshalFeedback
          ⟨id, newFeedback.EmployeeID, newFeedback.FeedbackText, newFeedback.Rating⟩)] ∧
    (∀ x ∈ db.rows, x.ID ≠ id) ∧
    (∀ bodyId : Int,
      feedbackHandler db f ⟨MethodPost, path, .ok { newFeedback with ID := bodyId }⟩
        = feedbackHandler db f ⟨MethodPost, path, .ok newFeedback⟩) ∧
    (feedbackHandler db f ⟨MethodPost, path, .ok newFeedback⟩).2.rows
      = db.rows ++ [Feedback.mk id newFeedback.EmployeeID newFeedback.FeedbackText newFeedback.Rating] ∧
    (feedbackHandler (feedbackHandler db f ⟨MethodPost, path, .ok newFeedback⟩).2 Faults.none
        listRequest).1.body
      = [Chunk.json (JSONValue.array ((db.rows ++
          [Feedback.mk id newFeedback.EmployeeID newFeedback.FeedbackText newFeedback.Rating]).map
            MarshalFeedback))] := by
  obtain ⟨-, hfresh, heq⟩ := DB.insert_some db _ _ _ id hins
  have hpost : ¬ (MethodPost = MethodGet) := by decide
  have hrun : ∀ bodyId : Int,
      feedbackHandler db f ⟨MethodPost, path, .ok { newFeedback with ID := bodyId }⟩
        = (Encode jsonWriter (MarshalFeedback
            ⟨id, newFeedback.EmployeeID, newFeedback.FeedbackText, newFeedback.Rating⟩),
          DB.mk (db.rows ++ [Feedback.mk id newFeedback.EmployeeID newFeedback.FeedbackText
            newFeedback.Rating]) (db.seq + 1)) := by
    intro bodyId
    simp only [feedbackHandler, hpost, hq, if_false, if_true, Bool.false_eq_true, heq]
    rfl
  have hrun0 := hrun newFeedback.ID
  have hsame : ({ newFeedback with ID := newFeedback.ID } : Feedback) = newFeedback := rfl
  rw [hsame] at hrun0
  refine ⟨?_, ?_, hfresh, fun bodyId => ?_, ?_, ?_⟩
  · rw [hrun0]
    exact Encode_status _ _ jsonWriter_status
  · rw [hrun0]
    rfl
  · rw [hrun0, hrun bodyId]
  · rw [hrun0]
  · rw [hrun0]
    exact list_faultfree_nonempty
      (DB.mk (db.rows ++ [Feedback.mk id newFeedback.EmployeeID newFeedback.FeedbackText
        newFeedback.Rating]) (db.seq + 1)) (by simp)

/-- Witness of C4: a create on a one-row table whose body carries the id 77. -/
theorem create_returns_and_stores_record_witness :
    Faults.none.stmtFails = false ∧
    (DB.insert ⟨[sampleA], 2⟩ "E9" "Great" 4).1 = some 2 ∧
    (feedbackHandler ⟨[sampleA], 2⟩ Faults.none ⟨MethodPost, "/feedback", .ok ⟨77, "E9", "Great", 4⟩⟩).1.body
      = [Chunk.json (MarshalFeedback ⟨2, "E9", "Great", 4⟩)] ∧
    (feedbackHandler ⟨[sampleA], 2⟩ Faults.none ⟨MethodPost, "/feedback", .ok ⟨77, "E9", "Great", 4⟩⟩).2.rows
      = [sampleA, ⟨2, "E9", "Great", 4⟩] :=
  ⟨rfl, rfl,
    (create_returns_and_stores_record ⟨[sampleA], 2⟩ Faults.none "/feedback" ⟨77, "E9", "Great", 4⟩ 2
      rfl rfl).2.1,
    (create_returns_and_stores_record ⟨[sampleA], 2⟩ Faults.none "/feedback" ⟨77, "E9", "Great", 4⟩ 2
      rfl rfl).2.2.2.2.1⟩

/-- The update statement changes nothing when no row carries the id. -/
theorem DB.update_of_absent (db : DB) (e t : String) (r id : Int)
    (h : ∀ x ∈ db.rows, x.ID ≠ id) : DB.update db e t r id = db := by
  unfold DB.update
  have hmap : db.rows.map (fun x => if x.ID = id then (⟨x.ID, e, t, r⟩ : Feedback) else x)
      = db.rows := by
    conv_rhs => rw [← List.map_id db.rows]
    apply List.map_congr_left
    intro x hx
    simp [h x hx]
  rw [hmap]

/-- C5, as stated, fails: on an empty table, `PUT /feedback/999999` with a
decodable payload answers 500 when the update statement reports an error. -/
theorem update_missing_id_counterexample :
    Atoi "999999" = some 999999 ∧
    (∀ x ∈ (⟨[], 1⟩ : DB).rows, x.ID ≠ 999999) ∧
    (updateFeedbackHandler ⟨[], 1⟩ ⟨true, [], Option.none⟩
      ⟨MethodPut, "/feedback/999999", .ok sampleA⟩).1.Status = 500 ∧
    (updateFeedbackHandler ⟨[], 1⟩ ⟨true, [], Option.none⟩
      ⟨MethodPut, "/feedback/999999", .ok sampleA⟩).1.Status ≠ 200 := by
  refine ⟨by decide, by simp, by decide, by decide⟩

/-- What the update handler does on `PUT /feedback/{seg}` once the segment
parses and the body decodes, when the statement reports an error. -/
theorem updateFeedbackHandler_stmt_error (db : DB) (f : Faults) (seg : String) (id : Int)
    (updated : Feedback) (hid : Atoi seg = some id) (hq : f.stmtFails = true) :
    updateFeedbackHandler db f ⟨MethodPut, "/feedback/" ++ seg, .ok updated⟩
      = (Error jsonWriter "Failed to update" StatusInternalServerError, db) := by
  have hs := Split_update_path seg (Atoi_no_slash seg id hid)
  simp [updateFeedbackHandler, hs, hid, hq, jsonWriter]

/-- C5, amended: for an id carried by no stored record and a decodable
payload, `PUT /feedback/{id}` whose update statement succeeds answers 200 with
a record whose id is the one of the path and whose three fields are the
submitted ones, and the table is the same after the request as before; when
the statement reports an error the answer is 500. -/
theorem update_missing_id_is_noop (db : DB) (f : Faults) (seg : String) (id : Int)
    (updated : Feedback) (hid : Atoi seg = some id)
    (habsent : ∀ x ∈ db.rows, x.ID ≠ id) :
    (f.stmtFails = false →
      (updateFeedbackHandler db f ⟨MethodPut, "/feedback/" ++ seg, .ok updated⟩).1.Status
        = 200 ∧
      (updateFeedbackHandler db f ⟨MethodPut, "/feedback/" ++ seg, .ok updated⟩).1.body
        = [Chunk.json (MarshalFeedback
            ⟨id, updated.EmployeeID, updated.FeedbackText, updated.Rating⟩)] ∧
      (updateFeedbackHandler db f ⟨MethodPut, "/feedback/" ++ seg, .ok updated⟩).2 = db) ∧
    (f.stmtFails = true →
      (updateFeedbackHandler db f ⟨MethodPut, "/feedback/" ++ seg, .ok updated⟩).1.Status
        = 500) := by
  refine ⟨fun hq => ?_, fun hq => ?_⟩
  · rw [updateFeedbackHandler_ok db f seg id updated hid hq]
    exact ⟨Encode_status _ _ jsonWriter_status, rfl, DB.update_of_absent db _ _ _ id habsent⟩
  · rw [updateFeedbackHandler_stmt_error db f seg id updated hid hq]
    exact Error_status _ _ _ jsonWriter_status

/-- Witness of C5 amended: `PUT /feedback/999999` on a table without that id,
the statement succeeding and the statement failing. -/
theorem update_missing_id_is_noop_witness :
    Atoi "999999" = some 999999 ∧
    (∀ x ∈ (⟨[sampleA], 2⟩ : DB).rows, x.ID ≠ 999999) ∧
    (updateFeedbackHandler ⟨[sampleA], 2⟩ Faults.none
      ⟨MethodPut, "/feedback/" ++ "999999", .ok ⟨5, "E7", "Late", 2⟩⟩).1.Status = 200 ∧
    (updateFeedbackHandler ⟨[sampleA], 2⟩ Faults.none
      ⟨MethodPut, "/feedback/" ++ "999999", .ok ⟨5, "E7", "Late", 2⟩⟩).1.body
      = [Chunk.json (MarshalFeedback ⟨999999, "E7", "Late", 2⟩)] ∧
    (updateFeedbackHandler ⟨[sampleA], 2⟩ Faults.none
      ⟨MethodPut, "/feedback/" ++ "999999", .ok ⟨5, "E7", "Late", 2⟩⟩).2 = ⟨[sampleA], 2⟩ ∧
    (updateFeedbackHandler ⟨[sampleA], 2⟩ ⟨true, [], Option.none⟩
      ⟨MethodPut, "/feedback/" ++ "999999", .ok ⟨5, "E7", "Late", 2⟩⟩).1.Status = 500 :=
  ⟨by decide, by decide,
    ((update_missing_id_is_noop ⟨[sampleA], 2⟩ Faults.none "999999" 999999 ⟨5, "E7", "Late", 2⟩
      (by decide) (by decide)).1 rfl).1,
    ((update_missing_id_is_noop ⟨[sampleA], 2⟩ Faults.none "999999" 999999 ⟨5, "E7", "Late", 2⟩
      (by decide) (by decide)).1 rfl).2.1,
    ((update_missing_id_is_noop ⟨[sampleA], 2⟩ Faults.none "999999" 999999 ⟨5, "E7", "Late", 2⟩
      (by decide) (by decide)).1 rfl).2.2,
    (update_missing_id_is_noop ⟨[sampleA], 2⟩ ⟨true, [], Option.none⟩ "999999" 999999
      ⟨5, "E7", "Late", 2⟩ (by decide) (by decide)).2 rfl⟩

/-- C6: for a table holding a record with id `i` and a decodable payload,
a `PUT /feedback/i` whose statement succeeds answers 200 and leaves the number
of records and the id at every position unchanged, leaves every record with
another id as it was, leaves every record with id `i` carrying id `i` and
exactly the submitted employeeId, feedbackText and rating (nothing of the old
record is kept), and the next list shows the table so updated. -/
theorem update_existing_record (db : DB) (f : Faults) (seg : String) (id : Int)
    (updated : Feedback) (hid : Atoi seg = some id) (hq : f.stmtFails = false)
    (hex : ∃ x ∈ db.rows, x.ID = id) :
    (updateFeedbackHandler db f ⟨MethodPut, "/feedback/" ++ seg, .ok updated⟩).1.Status = 200 ∧
    (updateFeedbackHandler db f ⟨MethodPut, "/feedback/" ++ seg, .ok updated⟩).2.rows.length
      = db.rows.length ∧
    (updateFeedbackHandler db f ⟨MethodPut, "/feedback/" ++ seg, .ok updated⟩).2.rows.map
        Feedback.ID = db.rows.map Feedback.ID ∧
    (∀ x : Feedback, x.ID ≠ id →
      (x ∈ (updateFeedbackHandler db f ⟨MethodPut, "/feedback/" ++ seg, .ok updated⟩).2.rows
        ↔ x ∈ db.rows)) ∧
    (∀ x ∈ (updateFeedbackHandler db f ⟨MethodPut, "/feedback/" ++ seg, .ok updated⟩).2.rows,
      x.ID = id →
        x = Feedback.mk id updated.EmployeeID updated.FeedbackText updated.Rating) ∧
    Feedback.mk id updated.EmployeeID updated.FeedbackText updated.Rating
      ∈ (updateFeedbackHandler db f ⟨MethodPut, "/feedback/" ++ seg, .ok updated⟩).2.rows ∧
    (feedbackHandler (updateFeedbackHandler db f
        ⟨MethodPut, "/feedback/" ++ seg, .ok updated⟩).2 Faults.none listRequest).1.body
      = [Chunk.json (JSONValue.array
          ((updateFeedbackHandler db f
            ⟨MethodPut, "/feedback/" ++ seg, .ok updated⟩).2.rows.map MarshalFeedback))] := by
  rw [updateFeedbackHandler_ok db f seg id updated hid hq]
  obtain ⟨x0, hx0, hx0id⟩ := hex
  refine ⟨Encode_status _ _ jsonWriter_status, ?_, ?_, ?_, ?_, ?_, ?_⟩
  · simp [DB.update]
  · simp only [DB.update, List.map_map]
    apply List.map_congr_left
    intro x _
    by_cases hx : x.ID = id <;> simp [hx]
  · intro x hx
    simp only [DB.update, List.mem_map]
    constructor
    · rintro ⟨y, hy, hyx⟩
      by_cases hyid : y.ID = id
      · rw [if_pos hyid] at hyx
        exact absurd (by rw [← hyx, hyid]) hx
      · rw [if_neg hyid] at hyx
        exact hyx ▸ hy
    · intro hmem
      exact ⟨x, hmem, by rw [if_neg hx]⟩
  · intro x hmem hxid
    simp only [DB.update, List.mem_map] at hmem
    obtain ⟨y, _, hyx⟩ := hmem
    by_cases hyid : y.ID = id
    · rw [if_pos hyid] at hyx
      rw [← hyx, hyid]
    · rw [if_neg hyid] at hyx
      exact absurd (hyx ▸ hxid) hyid
  · simp only [DB.update, List.mem_map]
    exact ⟨x0, hx0, by rw [if_pos hx0id, hx0id]⟩
  · apply list_faultfree_nonempty
    intro hnil
    simp only [DB.update, List.map_eq_nil_iff] at hnil
    rw [hnil] at hx0
    exact absurd hx0 (by simp)

/-- Witness of C6: `PUT /feedback/1` on a table of two records. -/
theorem update_existing_record_witness :
    Atoi "1" = some 1 ∧ Faults.none.stmtFails = false ∧
    (∃ x ∈ (⟨[sampleA, sampleB], 3⟩ : DB).rows, x.ID = 1) ∧
    (updateFeedbackHandler ⟨[sampleA, sampleB], 3⟩ Faults.none
      ⟨MethodPut, "/feedback/" ++ "1", .ok ⟨0, "E7", "", 2⟩⟩).1.Status = 200 ∧
    (updateFeedbackHandler ⟨[sampleA, sampleB], 3⟩ Faults.none
      ⟨MethodPut, "/feedback/" ++ "1", .ok ⟨0, "E7", "", 2⟩⟩).2.rows.length = 2 ∧
    Feedback.mk 1 "E7" "" 2 ∈ (updateFeedbackHandler ⟨[sampleA, sampleB], 3⟩ Faults.none
      ⟨MethodPut, "/feedback/" ++ "1", .ok ⟨0, "E7", "", 2⟩⟩).2.rows :=
  ⟨by decide, rfl, ⟨sampleA, by simp, rfl⟩,
    (update_existing_record ⟨[sampleA, sampleB], 3⟩ Faults.none "1" 1 ⟨0, "E7", "", 2⟩
      (by decide) rfl ⟨sampleA, by simp, rfl⟩).1,
    (update_existing_record ⟨[sampleA, sampleB], 3⟩ Faults.none "1" 1 ⟨0, "E7", "", 2⟩
      (by decide) rfl ⟨sampleA, by simp, rfl⟩).2.1,
    (update_existing_record ⟨[sampleA, sampleB], 3⟩ Faults.none "1" 1 ⟨0, "E7", "", 2⟩
      (by decide) rfl ⟨sampleA, by simp, rfl⟩).2.2.2.2.2.1⟩

/-- C7: for every table and every id the path segment parses to, a
`DELETE /feedback/delete/{id}` whose statement succeeds answers 200 with a
message that contains the id in decimal, whether or not a record carried that
id; afterwards no stored record has that id, the records with another id are
the same as before, in the same order, and the next list shows none with it. -/
theorem delete_removes_record (db : DB) (f : Faults) (seg : String) (id : Int)
    (body : Except String Feedback) (hid : Atoi seg = some id) (hq : f.stmtFails = false) :
    (deleteFeedbackHandler db f ⟨MethodDelete, "/feedback/delete/" ++ seg, body⟩).1.Status = 200 ∧
    (deleteFeedbackHandler db f ⟨MethodDelete, "/feedback/delete/" ++ seg, body⟩).1.body
      = [Chunk.text ("Feedback with ID " ++ formatInt id ++ " deleted")] ∧
    (∀ x ∈ (deleteFeedbackHandler db f
        ⟨MethodDelete, "/feedback/delete/" ++ seg, body⟩).2.rows, x.ID ≠ id) ∧
    (∀ x : Feedback, x.ID ≠ id →
      (x ∈ (deleteFeedbackHandler db f ⟨MethodDelete, "/feedback/delete/" ++ seg, body⟩).2.rows
        ↔ x ∈ db.rows)) ∧
    (deleteFeedbackHandler db f ⟨MethodDelete, "/feedback/delete/" ++ seg, body⟩).2.rows.Sublist
      db.rows ∧
    ∃ s : Slice,
      (feedbackHandler (deleteFeedbackHandler db f
          ⟨MethodDelete, "/feedback/delete/" ++ seg, body⟩).2 Faults.none listRequest).1.body
        = [Chunk.json (MarshalSlice s)] ∧
      ∀ x ∈ s.toList, x.ID ≠ id ∧ x ∈ db.rows := by
  rw [deleteFeedbackHandler_ok db f seg id body hid hq]
  have hmem : ∀ x : Feedback, x ∈ (DB.delete db id).rows ↔ x ∈ db.rows ∧ x.ID ≠ id := by
    intro x
    simp [DB.delete, List.mem_filter]
  refine ⟨rfl, rfl, fun x hx => ((hmem x).mp hx).2, fun x hx => ?_, ?_, ?_⟩
  · exact ⟨fun h => ((hmem x).mp h).1, fun h => (hmem x).mpr ⟨h, hx⟩⟩
  · exact List.filter_sublist _
  · obtain ⟨-, -, s, hs, hsl⟩ := list_faultfree (DB.delete db id)
    refine ⟨s, hs, fun x hx => ?_⟩
    rw [hsl] at hx
    exact ⟨((hmem x).mp hx).2, ((hmem x).mp hx).1⟩

/-- Witness of C7: `DELETE /feedback/delete/2` on a table of two records. -/
theorem delete_removes_record_witness :
    Atoi "2" = some 2 ∧ Faults.none.stmtFails = false ∧
    (deleteFeedbackHandler ⟨[sampleA, sampleB], 3⟩ Faults.none
      ⟨MethodDelete, "/feedback/delete/" ++ "2", .error "EOF"⟩).1.Status = 200 ∧
    (deleteFeedbackHandler ⟨[sampleA, sampleB], 3⟩ Faults.none
      ⟨MethodDelete, "/feedback/delete/" ++ "2", .error "EOF"⟩).1.body
      = [Chunk.text ("Feedback with ID " ++ formatInt 2 ++ " deleted")] ∧
    ∀ x ∈ (deleteFeedbackHandler ⟨[sampleA, sampleB], 3⟩ Faults.none
      ⟨MethodDelete, "/feedback/delete/" ++ "2", .error "EOF"⟩).2.rows, x.ID ≠ 2 :=
  ⟨by decide, rfl,
    (delete_removes_record ⟨[sampleA, sampleB], 3⟩ Faults.none "2" 2 (.error "EOF")
      (by decide) rfl).1,
    (delete_removes_record ⟨[sampleA, sampleB], 3⟩ Faults.none "2" 2 (.error "EOF")
      (by decide) rfl).2.1,
    (delete_removes_record ⟨[sampleA, sampleB], 3⟩ Faults.none "2" 2 (.error "EOF")
      (by decide) rfl).2.2.1⟩

/-- C8: a `PUT` reaching the update handler answers 400 whenever its path does
not split on `/` into exactly 3 segments, and a `DELETE` reaching the delete
handler answers 400 whenever its path does not split into exactly 4, whatever
the segment at the identifier position is; with the right count the answer is
400 exactly when the identifier segment (third for update, fourth for delete)
is not a valid integer or, for update, the body does not decode. -/
theorem path_parsing_bad_request (db : DB) (f : Faults) (path : String)
    (body : Except String Feedback) :
    ((Split path).length ≠ 3 →
      (updateFeedbackHandler db f ⟨MethodPut, path, body⟩).1.Status = 400) ∧
    ((Split path).length = 3 →
      ((updateFeedbackHandler db f ⟨MethodPut, path, body⟩).1.Status = 400 ↔
        (Atoi ((Split path).getD 2 "") = Option.none ∨ ∃ err, body = .error err))) ∧
    ((Split path).length ≠ 4 →
      (deleteFeedbackHandler db f ⟨MethodDelete, path, body⟩).1.Status = 400) ∧
    ((Split path).length = 4 →
      ((deleteFeedbackHandler db f ⟨MethodDelete, path, body⟩).1.Status = 400 ↔
        Atoi ((Split path).getD 3 "") = Option.none)) := by
  refine ⟨fun hlen => ?_, fun hlen => ?_, fun hlen => ?_, fun hlen => ?_⟩
  · simp only [updateFeedbackHandler, ne_eq, not_true_eq_false, if_false, hlen,
      not_false_eq_true, if_true]
    exact Error_status _ _ _ rfl
  · simp only [updateFeedbackHandler, ne_eq, not_true_eq_false, if_false, hlen]
    cases hat : Atoi ((Split path).getD 2 "") with
    | none =>
      simp only [true_or, iff_true]
      exact Error_status _ _ _ rfl
    | some id =>
      cases body with
      | error err =>
        simp only [reduceCtorEq, false_or, Except.error.injEq, exists_eq', iff_true]
        exact Error_status _ _ _ rfl
      | ok updated =>
        simp only [reduceCtorEq, false_or, exists_false, iff_false]
        cases hq : f.stmtFails with
        | true =>
          simp only [if_true]
          rw [Error_status _ _ _ rfl]
          decide
        | false =>
          simp only [Bool.false_eq_true, if_false]
          rw [Encode_status _ _ rfl]
          decide
  · simp only [deleteFeedbackHandler, ne_eq, not_true_eq_false, if_false, hlen,
      not_false_eq_true, if_true]
    exact Error_status _ _ _ rfl
  · simp only [deleteFeedbackHandler, ne_eq, not_true_eq_false, if_false, hlen]
    cases hat : Atoi ((Split path).getD 3 "") with
    | none =>
      simp only [iff_true]
      exact Error_status _ _ _ rfl
    | some id =>
      simp only [reduceCtorEq, iff_false]
      cases hq : f.stmtFails with
      | true =>
        simp only [if_true]
        rw [Error_status _ _ _ rfl]
        decide
      | false =>
        simp only [Bool.false_eq_true, if_false]
        intro h
        exact absurd (show (200 : Nat) = 400 from h) (by decide)

/-- Witness of C8: `PUT /feedback/abc` and `DELETE /feedback/delete/1/2` answer 400. -/
theorem path_parsing_bad_request_witness :
    (Split "/feedback/abc").length = 3 ∧ Atoi ((Split "/feedback/abc").getD 2 "") = Option.none ∧
    (updateFeedbackHandler ⟨[sampleA], 2⟩ Faults.none
      ⟨MethodPut, "/feedback/abc", .ok sampleB⟩).1.Status = 400 ∧
    (Split "/feedback/delete/1/2").length ≠ 4 ∧
    (deleteFeedbackHandler ⟨[sampleA], 2⟩ Faults.none
      ⟨MethodDelete, "/feedback/delete/1/2", .ok sampleB⟩).1.Status = 400 :=
  ⟨by decide, by decide,
    ((path_parsing_bad_request ⟨[sampleA], 2⟩ Faults.none "/feedback/abc" (.ok sampleB)).2.1
      (by decide)).mpr (Or.inl (by decide)),
    by decide,
    (path_parsing_bad_request ⟨[sampleA], 2⟩ Faults.none "/feedback/delete/1/2"
      (.ok sampleB)).2.2.1 (by decide)⟩

/-- The mux answers by itself, no handler running: `PUT /feedback//1` and
`DELETE /feedback/delete` get a 307 to the clean path, and that response has
no `Access-Control-Allow-Origin` header. -/
theorem mux_redirects_without_handler :
    (ServeHTTP ⟨[], 1⟩ Faults.none ⟨MethodPut, "/feedback//1", .ok sampleA⟩).1.Status = 307 ∧
    Header.Get (ServeHTTP ⟨[], 1⟩ Faults.none ⟨MethodPut, "/feedback//1", .ok sampleA⟩).1.header
      "Location" = some "/feedback/1" ∧
    Header.Get (ServeHTTP ⟨[], 1⟩ Faults.none ⟨MethodPut, "/feedback//1", .ok sampleA⟩).1.header
      "Access-Control-Allow-Origin" = Option.none ∧
    (ServeHTTP ⟨[], 1⟩ Faults.none ⟨MethodDelete, "/feedback/delete", .error "EOF"⟩).1.Status
      = 307 ∧
    Header.Get
      (ServeHTTP ⟨[], 1⟩ Faults.none ⟨MethodDelete, "/feedback/delete", .error "EOF"⟩).1.header
      "Location" = some "/feedback/delete/" ∧
    Header.Get
      (ServeHTTP ⟨[], 1⟩ Faults.none ⟨MethodDelete, "/feedback/delete", .error "EOF"⟩).1.header
      "Access-Control-Allow-Origin" = Option.none := by
  refine ⟨by decide, by decide, by decide, by decide, by decide, by decide⟩

end FeedbackManager
